import Mathlib

/-!
Verification of the traversal library (`customMap`, `customFilter`, `customFind`,
`customReduce` from `src/03-objects/01-objects-introduction.js`) and of the
deterministic task scheduler described in the specification.

Modelling conventions:
* A JavaScript value of element type `α` is `JsVal α`: either `undef`
  (JavaScript `undefined`) or `val a` (a defined value).
* A JavaScript array for `customReduce` (which is `this`-based and checks
  `hasOwnProperty`) is `JsArray α := List (Option (JsVal α))`, where `none`
  is a hole (an index at which no element is present) and `some v` a present
  element.  Indexing a hole or an out-of-range index yields `undef`, exactly
  as `this[index]` does in JavaScript.
* A thrown JavaScript exception is an `Except` error; the library's own
  `TypeError` and caller-thrown errors live in `JsErr ε`.
* In JavaScript, calling `customReduce(callback)` with the second parameter
  omitted makes `initialValue` the value `undefined`; the model therefore
  represents an omitted initial value as the argument `JsVal.undef`.
* `for (let index = startIndex; index < len; index++) { body }` loops are
  embedded as index-recursive functions (`...Loop`) descending on
  `len - index`.
-/

inductive JsVal (α : Type) : Type where
  | undef : JsVal α
  | val : α → JsVal α
deriving DecidableEq, Repr

inductive JsErr (ε : Type) : Type where
  | typeError : String → JsErr ε
  | userErr : ε → JsErr ε
deriving DecidableEq, Repr

abbrev JsArray (α : Type) : Type := List (Option (JsVal α))

/-- `this[i]` on a `JsArray`: a hole or an out-of-range index reads as
`undefined`. -/
def jsGet {α : Type} (arr : JsArray α) (i : Nat) : JsVal α :=
  match arr.getD i none with
  | none => JsVal.undef
  | some v => v

/-- `this.hasOwnProperty(i)` for an index `i`: true exactly when an element is
present at `i`. -/
def hasOwnIdx {α : Type} (arr : JsArray α) (i : Nat) : Bool :=
  (arr.getD i none).isSome

/-! ## customMap (source lines 186–197)

```
function customMap(inputArray, callback) {
  const newArray = [];
  for (let index = 0; index < inputArray.length; index++) {
    const currentElement = inputArray[index];
    const transformedValue = callback(currentElement, index, inputArray);
    newArray.push(transformedValue);
  }
  return newArray;
}
```
-/

def customMapLoop {α β : Type} (inputArray : List α)
    (callback : α → Nat → List α → β) (index : Nat) : List β :=
  if h : index < inputArray.length then
    callback (inputArray.get ⟨index, h⟩) index inputArray ::
      customMapLoop inputArray callback (index + 1)
  else
    []
termination_by inputArray.length - index

def customMap {α β : Type} (inputArray : List α)
    (callback : α → Nat → List α → β) : List β :=
  customMapLoop inputArray callback 0

/-- `customMap` with a callback that may throw (`Except`): the loop aborts at
the first error, returning it unmodified. -/
def customMapELoop {α β ε : Type} (inputArray : List α)
    (callback : α → Nat → List α → Except ε β) (index : Nat) :
    Except ε (List β) :=
  if h : index < inputArray.length then
    match callback (inputArray.get ⟨index, h⟩) index inputArray with
    | Except.error e => Except.error e
    | Except.ok transformedValue =>
      match customMapELoop inputArray callback (index + 1) with
      | Except.error e => Except.error e
      | Except.ok rest => Except.ok (transformedValue :: rest)
  else
    Except.ok []
termination_by inputArray.length - index

def customMapE {α β ε : Type} (inputArray : List α)
    (callback : α → Nat → List α → Except ε β) : Except ε (List β) :=
  customMapELoop inputArray callback 0

/-! ## customFilter (source lines 233–247) -/

def customFilterLoop {α : Type} (inputArray : List α)
    (callback : α → Nat → List α → Bool) (index : Nat) : List α :=
  if h : index < inputArray.length then
    if callback (inputArray.get ⟨index, h⟩) index inputArray then
      inputArray.get ⟨index, h⟩ :: customFilterLoop inputArray callback (index + 1)
    else
      customFilterLoop inputArray callback (index + 1)
  else
    []
termination_by inputArray.length - index

def customFilter {α : Type} (inputArray : List α)
    (callback : α → Nat → List α → Bool) : List α :=
  customFilterLoop inputArray callback 0

def customFilterELoop {α ε : Type} (inputArray : List α)
    (callback : α → Nat → List α → Except ε Bool) (index : Nat) :
    Except ε (List α) :=
  if h : index < inputArray.length then
    match callback (inputArray.get ⟨index, h⟩) index inputArray with
    | Except.error e => Except.error e
    | Except.ok shouldInclude =>
      match customFilterELoop inputArray callback (index + 1) with
      | Except.error e => Except.error e
      | Except.ok rest =>
        Except.ok (if shouldInclude then inputArray.get ⟨index, h⟩ :: rest else rest)
  else
    Except.ok []
termination_by inputArray.length - index

def customFilterE {α ε : Type} (inputArray : List α)
    (callback : α → Nat → List α → Except ε Bool) : Except ε (List α) :=
  customFilterELoop inputArray callback 0

/-! ## customFind (source lines 291–300) -/

def customFindLoop {α : Type} (inputArray : List α)
    (callback : α → Nat → List α → Bool) (index : Nat) : Option α :=
  if h : index < inputArray.length then
    if callback (inputArray.get ⟨index, h⟩) index inputArray then
      some (inputArray.get ⟨index, h⟩)
    else
      customFindLoop inputArray callback (index + 1)
  else
    none
termination_by inputArray.length - index

/-- `customFind`: `none` models the JavaScript return value `undefined`
(the not-found sentinel). -/
def customFind {α : Type} (inputArray : List α)
    (callback : α → Nat → List α → Bool) : Option α :=
  customFindLoop inputArray callback 0

def customFindELoop {α ε : Type} (inputArray : List α)
    (callback : α → Nat → List α → Except ε Bool) (index : Nat) :
    Except ε (Option α) :=
  if h : index < inputArray.length then
    match callback (inputArray.get ⟨index, h⟩) index inputArray with
    | Except.error e => Except.error e
    | Except.ok satisfiesCondition =>
      if satisfiesCondition then
        Except.ok (some (inputArray.get ⟨index, h⟩))
      else
        customFindELoop inputArray callback (index + 1)
  else
    Except.ok none
termination_by inputArray.length - index

def customFindE {α ε : Type} (inputArray : List α)
    (callback : α → Nat → List α → Except ε Bool) : Except ε (Option α) :=
  customFindELoop inputArray callback 0

/-! ## customReduce (source lines 337–359)

```
function customReduce(callback, initialValue) {
  let accumulator = initialValue;
  let startIndex = 0;
  if (accumulator === undefined) {
    if (this.length === 0) {
      throw new TypeError("Reduce of empty array with no initial value");
    }
    accumulator = this[0];
    startIndex = 1;
  }
  for (let index = startIndex; index < this.length; index++) {
    if (this.hasOwnProperty(index)) {
      const currentValue = this[index];
      accumulator = callback(accumulator, currentValue, index, this);
    }
  }
  return accumulator;
}
```
The callback is a JavaScript function and may throw, so it returns
`Except (JsErr ε) (JsVal α)`; a thrown error aborts the loop unmodified. -/

def customReduceLoop {α ε : Type} (arr : JsArray α)
    (callback : JsVal α → JsVal α → Nat → JsArray α → Except (JsErr ε) (JsVal α))
    (index : Nat) (accumulator : JsVal α) : Except (JsErr ε) (JsVal α) :=
  if _h : index < arr.length then
    if hasOwnIdx arr index then
      match callback accumulator (jsGet arr index) index arr with
      | Except.error e => Except.error e
      | Except.ok acc2 => customReduceLoop arr callback (index + 1) acc2
    else
      customReduceLoop arr callback (index + 1) accumulator
  else
    Except.ok accumulator
termination_by arr.length - index

def customReduce {α ε : Type} (arr : JsArray α)
    (callback : JsVal α → JsVal α → Nat → JsArray α → Except (JsErr ε) (JsVal α))
    (initialValue : JsVal α) : Except (JsErr ε) (JsVal α) :=
  match initialValue with
  | JsVal.undef =>
    if arr.length = 0 then
      Except.error (JsErr.typeError "Reduce of empty array with no initial value")
    else
      customReduceLoop arr callback 1 (jsGet arr 0)
  | JsVal.val a =>
    customReduceLoop arr callback 0 (JsVal.val a)

/-! ## State-threaded traversals

The source functions only ever *read* `inputArray` (`inputArray[index]`,
`this[index]`, `this.length`, `this.hasOwnProperty(index)`); no statement
assigns to it.  To make this observable, the following variants thread the
input array through every loop iteration as explicit state and return the
array visible to the caller after the loop, so that "the input is unchanged"
is a provable statement rather than a typing accident. -/

def customMapStLoop {α β : Type} (callback : α → Nat → List α → β)
    (inputArray : List α) (index : Nat) : List β × List α :=
  if h : index < inputArray.length then
    let currentElement := inputArray.get ⟨index, h⟩
    let transformedValue := callback currentElement index inputArray
    let rest := customMapStLoop callback inputArray (index + 1)
    (transformedValue :: rest.1, rest.2)
  else
    ([], inputArray)
termination_by inputArray.length - index

def customMapSt {α β : Type} (inputArray : List α)
    (callback : α → Nat → List α → β) : List β × List α :=
  customMapStLoop callback inputArray 0

def customFilterStLoop {α : Type} (callback : α → Nat → List α → Bool)
    (inputArray : List α) (index : Nat) : List α × List α :=
  if h : index < inputArray.length then
    let currentElement := inputArray.get ⟨index, h⟩
    let shouldInclude := callback currentElement index inputArray
    let rest := customFilterStLoop callback inputArray (index + 1)
    (if shouldInclude then currentElement :: rest.1 else rest.1, rest.2)
  else
    ([], inputArray)
termination_by inputArray.length - index

def customFilterSt {α : Type} (inputArray : List α)
    (callback : α → Nat → List α → Bool) : List α × List α :=
  customFilterStLoop callback inputArray 0

def customFindStLoop {α : Type} (callback : α → Nat → List α → Bool)
    (inputArray : List α) (index : Nat) : Option α × List α :=
  if h : index < inputArray.length then
    let currentElement := inputArray.get ⟨index, h⟩
    if callback currentElement index inputArray then
      (some currentElement, inputArray)
    else
      customFindStLoop callback inputArray (index + 1)
  else
    (none, inputArray)
termination_by inputArray.length - index

def customFindSt {α : Type} (inputArray : List α)
    (callback : α → Nat → List α → Bool) : Option α × List α :=
  customFindStLoop callback inputArray 0

def customReduceStLoop {α ε : Type}
    (callback : JsVal α → JsVal α → Nat → JsArray α → Except (JsErr ε) (JsVal α))
    (arr : JsArray α) (index : Nat) (accumulator : JsVal α) :
    Except (JsErr ε) (JsVal α) × JsArray α :=
  if _h : index < arr.length then
    if hasOwnIdx arr index then
      match callback accumulator (jsGet arr index) index arr with
      | Except.error e => (Except.error e, arr)
      | Except.ok acc2 => customReduceStLoop callback arr (index + 1) acc2
    else
      customReduceStLoop callback arr (index + 1) accumulator
  else
    (Except.ok accumulator, arr)
termination_by arr.length - index

def customReduceSt {α ε : Type} (arr : JsArray α)
    (callback : JsVal α → JsVal α → Nat → JsArray α → Except (JsErr ε) (JsVal α))
    (initialValue : JsVal α) : Except (JsErr ε) (JsVal α) × JsArray α :=
  match initialValue with
  | JsVal.undef =>
    if arr.length = 0 then
      (Except.error (JsErr.typeError "Reduce of empty array with no initial value"), arr)
    else
      customReduceStLoop callback arr 1 (jsGet arr 0)
  | JsVal.val a =>
    customReduceStLoop callback arr 0 (JsVal.val a)

/-! ## Deterministic task scheduler

Modelled from the spec: the repository contains no scheduler implementation
(its asynchronous examples only call the host `setTimeout` / `Promise.then`),
so the scheduler here follows §4.2 of the specification word for word: a
microtask queue in FIFO submission order, a macrotask queue ordered by
`(delay, submissionSequenceNumber)`, and a driving loop that drains *all*
microtasks (re-checking after every execution) before dequeuing a single
macrotask.

A task is an opaque labelled unit of work whose only observable effect is
the list of submissions it performs when executed. -/

mutual
inductive SchedTask : Type where
  | mk : String → List SchedSub → SchedTask
inductive SchedSub : Type where
  | micro : SchedTask → SchedSub
  | delayed : SchedTask → Nat → SchedSub
end

def SchedTask.label : SchedTask → String
  | SchedTask.mk l _ => l

def SchedTask.subs : SchedTask → List SchedSub
  | SchedTask.mk _ s => s

/-- A macrotask-queue entry: `(task, delay, submissionSequenceNumber)`. -/
abbrev MacroEntry : Type := SchedTask × Nat × Nat

structure SchedState : Type where
  microQueue : List SchedTask
  timerQueue : List MacroEntry
  nextSeq : Nat

def initSched : SchedState := ⟨[], [], 0⟩

/-- Modelled from the spec: `submitMicrotask(task)` appends to the microtask
queue (FIFO). -/
def submitMicrotask (t : SchedTask) (s : SchedState) : SchedState :=
  { s with microQueue := s.microQueue ++ [t] }

/-- Insert a macrotask entry keeping the queue sorted by
`(delay, submissionSequenceNumber)`; a new entry goes after every entry whose
delay is less than or equal to its own (sequence numbers increase, so ties
break by arrival order). -/
def insertMacroEntry (e : MacroEntry) : List MacroEntry → List MacroEntry
  | [] => [e]
  | e2 :: rest =>
    if e2.2.1 ≤ e.2.1 then
      e2 :: insertMacroEntry e rest
    else
      e :: e2 :: rest

/-- Modelled from the spec: `submitMacrotask(task, delay)` inserts into the
macrotask queue ordered by `(delay, submissionSequenceNumber)`. -/
def submitMacrotask (t : SchedTask) (delay : Nat) (s : SchedState) : SchedState :=
  { s with
    timerQueue := insertMacroEntry (t, delay, s.nextSeq) s.timerQueue
    nextSeq := s.nextSeq + 1 }

def applySub (s : SchedState) : SchedSub → SchedState
  | SchedSub.micro t => submitMicrotask t s
  | SchedSub.delayed t d => submitMacrotask t d s

/-- Execute a task body: perform its submissions in order. -/
def runTask (t : SchedTask) (s : SchedState) : SchedState :=
  t.subs.foldl applySub s

inductive EntryKind : Type where
  | microEntry : EntryKind
  | timerEntry : EntryKind
deriving DecidableEq, Repr

/-- One step of the driving loop: run the head microtask if any exists;
otherwise dequeue and run the head macrotask (lowest `(delay, sequence)`,
which is the head since the queue is kept sorted); otherwise the scheduler
is drained.  Returns the executed task's label and kind together with the
state after the task's submissions. -/
def schedStep (s : SchedState) : Option ((String × EntryKind) × SchedState) :=
  match s.microQueue with
  | t :: rest =>
    some ((t.label, EntryKind.microEntry), runTask t { s with microQueue := rest })
  | [] =>
    match s.timerQueue with
    | e :: rest =>
      some ((e.1.label, EntryKind.timerEntry), runTask e.1 { s with timerQueue := rest })
    | [] => none

/-- Modelled from the spec: `runToCompletion()` pumps `schedStep` until both
queues are empty, collecting the execution log.  `fuel` bounds the number of
steps (task bodies may submit unboundedly many new tasks). -/
def runToCompletion (fuel : Nat) (s : SchedState) : List (String × EntryKind) :=
  match fuel with
  | 0 => []
  | fuel' + 1 =>
    match schedStep s with
    | none => []
    | some (entry, s2) => entry :: runToCompletion fuel' s2

/-! ## Lemmas about `customMap` -/

theorem customMapLoop_length {α β : Type} (s : List α)
    (f : α → Nat → List α → β) :
    ∀ k i, s.length - i ≤ k →
      (customMapLoop s f i).length = s.length - i := by
  intro k
  induction k with
  | zero =>
    intro i h
    rw [customMapLoop]
    rw [dif_neg (by omega)]
    simp
    omega
  | succ k ih =>
    intro i h
    rw [customMapLoop]
    by_cases hi : i < s.length
    · rw [dif_pos hi]
      have := ih (i + 1) (by omega)
      simp [this]
      omega
    · rw [dif_neg hi]
      simp
      omega

theorem customMap_length {α β : Type} (s : List α)
    (f : α → Nat → List α → β) :
    (customMap s f).length = s.length := by
  have := customMapLoop_length s f (s.length) 0 (by omega)
  simpa [customMap] using this

theorem customMapLoop_getElem? {α β : Type} (s : List α)
    (f : α → Nat → List α → β) :
    ∀ k i j, s.length - i ≤ k →
      (customMapLoop s f i)[j]? =
        if h : i + j < s.length then some (f (s.get ⟨i + j, h⟩) (i + j) s) else none := by
  intro k
  induction k with
  | zero =>
    intro i j h
    rw [customMapLoop, dif_neg (by omega), dif_neg (by omega)]
    simp
  | succ k ih =>
    intro i j h
    rw [customMapLoop]
    by_cases hi : i < s.length
    · rw [dif_pos hi]
      cases j with
      | zero =>
        simp [hi]
      | succ j =>
        have := ih (i + 1) j (by omega)
        rw [List.getElem?_cons_succ, this]
        by_cases hij : i + 1 + j < s.length
        · rw [dif_pos hij, dif_pos (by omega)]
          have heq : i + 1 + j = i + (j + 1) := by omega
          simp [heq]
        · rw [dif_neg hij, dif_neg (by omega)]
    · rw [dif_neg hi, dif_neg (by omega)]
      simp

/-! ## Lemmas about `customFilter` -/

theorem customFilterLoop_sublist {α : Type} (s : List α)
    (p : α → Nat → List α → Bool) :
    ∀ k i, s.length - i ≤ k → List.Sublist (customFilterLoop s p i) (s.drop i) := by
  intro k
  induction k with
  | zero =>
    intro i h
    rw [customFilterLoop, dif_neg (by omega)]
    exact List.nil_sublist _
  | succ k ih =>
    intro i h
    rw [customFilterLoop]
    by_cases hi : i < s.length
    · rw [dif_pos hi]
      rw [List.drop_eq_getElem_cons hi]
      have hrec := ih (i + 1) (by omega)
      by_cases hp : p (s.get ⟨i, hi⟩) i s
      · rw [if_pos hp]
        exact List.Sublist.cons₂ _ hrec
      · rw [if_neg hp]
        exact List.Sublist.cons _ hrec
    · rw [dif_neg hi]
      exact List.nil_sublist _

theorem customFilterLoop_mem {α : Type} (s : List α)
    (p : α → Nat → List α → Bool) :
    ∀ k i x, s.length - i ≤ k → x ∈ customFilterLoop s p i →
      ∃ j, ∃ h : j < s.length, i ≤ j ∧ x = s.get ⟨j, h⟩ ∧ p x j s = true := by
  intro k
  induction k with
  | zero =>
    intro i x h hx
    rw [customFilterLoop, dif_neg (by omega)] at hx
    simp at hx
  | succ k ih =>
    intro i x h hx
    rw [customFilterLoop] at hx
    by_cases hi : i < s.length
    · rw [dif_pos hi] at hx
      by_cases hp : p (s.get ⟨i, hi⟩) i s
      · rw [if_pos hp] at hx
        rcases List.mem_cons.mp hx with hx | hx
        · exact ⟨i, hi, le_refl i, hx, by rw [hx]; exact hp⟩
        · obtain ⟨j, hj, hij, hxj, hpj⟩ := ih (i + 1) x (by omega) hx
          exact ⟨j, hj, by omega, hxj, hpj⟩
      · rw [if_neg hp] at hx
        obtain ⟨j, hj, hij, hxj, hpj⟩ := ih (i + 1) x (by omega) hx
        exact ⟨j, hj, by omega, hxj, hpj⟩
    · rw [dif_neg hi] at hx
      simp at hx

theorem customFilterLoop_complete {α : Type} (s : List α)
    (p : α → Nat → List α → Bool) :
    ∀ k i j, ∀ h : j < s.length, s.length - i ≤ k → i ≤ j →
      p (s.get ⟨j, h⟩) j s = true → s.get ⟨j, h⟩ ∈ customFilterLoop s p i := by
  intro k
  induction k with
  | zero =>
    intro i j h hk hij _
    omega
  | succ k ih =>
    intro i j h hk hij hp
    have hi : i < s.length := by omega
    rw [customFilterLoop, dif_pos hi]
    by_cases hieq : i = j
    · subst hieq
      rw [if_pos hp]
      exact List.mem_cons_self _ _
    · have hrec := ih (i + 1) j h (by omega) (by omega) hp
      by_cases hpi : p (s.get ⟨i, hi⟩) i s
      · rw [if_pos hpi]
        exact List.mem_cons_of_mem _ hrec
      · rw [if_neg hpi]
        exact hrec

/-! ## Lemmas about `customFind` -/

theorem customFindLoop_first {α : Type} (s : List α)
    (p : α → Nat → List α → Bool) :
    ∀ k i j, ∀ hj : j < s.length, s.length - i ≤ k → i ≤ j →
      (∀ m, ∀ hm : m < s.length, i ≤ m → m < j → p (s.get ⟨m, hm⟩) m s = false) →
      p (s.get ⟨j, hj⟩) j s = true →
      customFindLoop s p i = some (s.get ⟨j, hj⟩) := by
  intro k
  induction k with
  | zero =>
    intro i j hj hk hij _ _
    omega
  | succ k ih =>
    intro i j hj hk hij hbefore hp
    have hi : i < s.length := by omega
    rw [customFindLoop, dif_pos hi]
    by_cases hieq : i = j
    · subst hieq
      rw [if_pos hp]
    · have hpi : p (s.get ⟨i, hi⟩) i s = false := hbefore i hi (le_refl i) (by omega)
      rw [if_neg (by rw [hpi]; exact Bool.false_ne_true)]
      exact ih (i + 1) j hj (by omega) (by omega)
        (fun m hm him hmj => hbefore m hm (by omega) hmj) hp

theorem customFindLoop_none {α : Type} (s : List α)
    (p : α → Nat → List α → Bool) :
    ∀ k i, s.length - i ≤ k →
      (∀ m, ∀ hm : m < s.length, i ≤ m → p (s.get ⟨m, hm⟩) m s = false) →
      customFindLoop s p i = none := by
  intro k
  induction k with
  | zero =>
    intro i hk _
    rw [customFindLoop, dif_neg (by omega)]
  | succ k ih =>
    intro i hk hall
    rw [customFindLoop]
    by_cases hi : i < s.length
    · rw [dif_pos hi]
      have hpi : p (s.get ⟨i, hi⟩) i s = false := hall i hi (le_refl i)
      rw [if_neg (by rw [hpi]; exact Bool.false_ne_true)]
      exact ih (i + 1) (by omega) (fun m hm him => hall m hm (by omega))
    · rw [dif_neg hi]

theorem customFindELoop_shortcircuit {α ε : Type} (s : List α)
    (cb : α → Nat → List α → Except ε Bool) :
    ∀ k i j, ∀ hj : j < s.length, s.length - i ≤ k → i ≤ j →
      (∀ m, ∀ hm : m < s.length, i ≤ m → m < j → cb (s.get ⟨m, hm⟩) m s = Except.ok false) →
      cb (s.get ⟨j, hj⟩) j s = Except.ok true →
      customFindELoop s cb i = Except.ok (some (s.get ⟨j, hj⟩)) := by
  intro k
  induction k with
  | zero =>
    intro i j hj hk hij _ _
    omega
  | succ k ih =>
    intro i j hj hk hij hbefore hcb
    have hi : i < s.length := by omega
    rw [customFindELoop, dif_pos hi]
    by_cases hieq : i = j
    · subst hieq
      rw [hcb]
      simp
    · have hcbi : cb (s.get ⟨i, hi⟩) i s = Except.ok false :=
        hbefore i hi (le_refl i) (by omega)
      rw [hcbi]
      simp only [if_neg Bool.false_ne_true]
      exact ih (i + 1) j hj (by omega) (by omega)
        (fun m hm him hmj => hbefore m hm (by omega) hmj) hcb

/-! ## Lemmas about the throwing (`Except`) traversal variants -/

theorem customMapELoop_ok {α β ε : Type} (s : List α)
    (f : α → Nat → List α → β) :
    ∀ k i, s.length - i ≤ k →
      customMapELoop (ε := ε) s (fun a i2 l => Except.ok (f a i2 l)) i =
        Except.ok (customMapLoop s f i) := by
  intro k
  induction k with
  | zero =>
    intro i h
    rw [customMapELoop, dif_neg (by omega), customMapLoop, dif_neg (by omega)]
  | succ k ih =>
    intro i h
    rw [customMapELoop, customMapLoop]
    by_cases hi : i < s.length
    · rw [dif_pos hi, dif_pos hi, ih (i + 1) (by omega)]
    · rw [dif_neg hi, dif_neg hi]

theorem customMapELoop_err {α β ε : Type} (s : List α)
    (f : α → Nat → List α → β) (j : Nat) (e : ε) (hj : j < s.length) :
    ∀ k i, s.length - i ≤ k → i ≤ j →
      customMapELoop s
        (fun a i2 l => if i2 = j then Except.error e else Except.ok (f a i2 l)) i =
        Except.error e := by
  intro k
  induction k with
  | zero =>
    intro i hk hij
    omega
  | succ k ih =>
    intro i hk hij
    have hi : i < s.length := by omega
    rw [customMapELoop, dif_pos hi]
    by_cases hieq : i = j
    · simp only [if_pos hieq]
    · simp only [if_neg hieq]
      rw [ih (i + 1) (by omega) (by omega)]

theorem customFilterELoop_ok {α ε : Type} (s : List α)
    (p : α → Nat → List α → Bool) :
    ∀ k i, s.length - i ≤ k →
      customFilterELoop (ε := ε) s (fun a i2 l => Except.ok (p a i2 l)) i =
        Except.ok (customFilterLoop s p i) := by
  intro k
  induction k with
  | zero =>
    intro i h
    rw [customFilterELoop, dif_neg (by omega), customFilterLoop, dif_neg (by omega)]
  | succ k ih =>
    intro i h
    rw [customFilterELoop, customFilterLoop]
    by_cases hi : i < s.length
    · rw [dif_pos hi, dif_pos hi, ih (i + 1) (by omega)]
    · rw [dif_neg hi, dif_neg hi]

theorem customFilterELoop_err {α ε : Type} (s : List α)
    (p : α → Nat → List α → Bool) (j : Nat) (e : ε) (hj : j < s.length) :
    ∀ k i, s.length - i ≤ k → i ≤ j →
      customFilterELoop s
        (fun a i2 l => if i2 = j then Except.error e else Except.ok (p a i2 l)) i =
        Except.error e := by
  intro k
  induction k with
  | zero =>
    intro i hk hij
    omega
  | succ k ih =>
    intro i hk hij
    have hi : i < s.length := by omega
    rw [customFilterELoop, dif_pos hi]
    by_cases hieq : i = j
    · simp only [if_pos hieq]
    · simp only [if_neg hieq]
      rw [ih (i + 1) (by omega) (by omega)]

theorem customFindELoop_ok {α ε : Type} (s : List α)
    (p : α → Nat → List α → Bool) :
    ∀ k i, s.length - i ≤ k →
      customFindELoop (ε := ε) s (fun a i2 l => Except.ok (p a i2 l)) i =
        Except.ok (customFindLoop s p i) := by
  intro k
  induction k with
  | zero =>
    intro i h
    rw [customFindELoop, dif_neg (by omega), customFindLoop, dif_neg (by omega)]
  | succ k ih =>
    intro i h
    rw [customFindELoop, customFindLoop]
    by_cases hi : i < s.length
    · rw [dif_pos hi, dif_pos hi]
      by_cases hp : p (s.get ⟨i, hi⟩) i s
      · have hp2 : p s[i] i s = true := hp
        simp [hp2]
      · have hp2 : p s[i] i s = false := by simpa using hp
        simp [hp2, ih (i + 1) (by omega)]
    · rw [dif_neg hi, dif_neg hi]

theorem customFindELoop_err {α ε : Type} (s : List α)
    (p : α → Nat → List α → Bool) (j : Nat) (e : ε) (hj : j < s.length) :
    ∀ k i, s.length - i ≤ k → i ≤ j →
      (∀ m, ∀ hm : m < s.length, i ≤ m → m < j → p (s.get ⟨m, hm⟩) m s = false) →
      customFindELoop s
        (fun a i2 l => if i2 = j then Except.error e else Except.ok (p a i2 l)) i =
        Except.error e := by
  intro k
  induction k with
  | zero =>
    intro i hk hij _
    omega
  | succ k ih =>
    intro i hk hij hbefore
    have hi : i < s.length := by omega
    rw [customFindELoop, dif_pos hi]
    by_cases hieq : i = j
    · simp only [if_pos hieq]
    · simp only [if_neg hieq]
      have hpi : p (s.get ⟨i, hi⟩) i s = false := hbefore i hi (le_refl i) (by omega)
      rw [hpi]
      simp only [if_neg Bool.false_ne_true]
      exact ih (i + 1) (by omega) (by omega)
        (fun m hm him hmj => hbefore m hm (by omega) hmj)

/-! ## Lemmas about `customReduce` -/

theorem customReduceLoop_ok {α ε : Type} (arr : JsArray α)
    (g : JsVal α → JsVal α → Nat → JsArray α → JsVal α) :
    ∀ k i acc, arr.length - i ≤ k →
      ∃ v, customReduceLoop (ε := ε) arr
        (fun a b i2 l => Except.ok (g a b i2 l)) i acc = Except.ok v := by
  intro k
  induction k with
  | zero =>
    intro i acc h
    rw [customReduceLoop, dif_neg (by omega)]
    exact ⟨acc, rfl⟩
  | succ k ih =>
    intro i acc h
    rw [customReduceLoop]
    by_cases hi : i < arr.length
    · rw [dif_pos hi]
      by_cases hown : hasOwnIdx arr i
      · rw [if_pos hown]
        exact ih (i + 1) (g acc (jsGet arr i) i arr) (by omega)
      · rw [if_neg hown]
        exact ih (i + 1) acc (by omega)
    · rw [dif_neg hi]
      exact ⟨acc, rfl⟩

theorem hasOwnIdx_map_some {α : Type} (l : List (JsVal α)) (i : Nat)
    (h : i < l.length) : hasOwnIdx (l.map some) i = true := by
  have hlt : i < (l.map some).length := by simpa using h
  simp [hasOwnIdx, List.getD, List.getElem?_map, List.getElem?_eq_getElem h]

theorem jsGet_map_some {α : Type} (l : List (JsVal α)) (i : Nat)
    (h : i < l.length) : jsGet (l.map some) i = l.get ⟨i, h⟩ := by
  simp [jsGet, List.getD, List.getElem?_map, List.getElem?_eq_getElem h]

theorem customReduceLoop_err {α ε : Type} (l : List (JsVal α))
    (g : JsVal α → JsVal α → Nat → JsArray α → JsVal α) (j : Nat) (e : JsErr ε)
    (hj : j < l.length) :
    ∀ k i acc, l.length - i ≤ k → i ≤ j →
      customReduceLoop (l.map some)
        (fun a b i2 arr2 => if i2 = j then Except.error e else Except.ok (g a b i2 arr2))
        i acc = Except.error e := by
  intro k
  induction k with
  | zero =>
    intro i acc hk hij
    omega
  | succ k ih =>
    intro i acc hk hij
    have hi : i < l.length := by omega
    have hi2 : i < (l.map some).length := by simpa using hi
    rw [customReduceLoop, dif_pos hi2, if_pos (hasOwnIdx_map_some l i hi)]
    by_cases hieq : i = j
    · simp only [if_pos hieq]
    · simp only [if_neg hieq]
      exact ih (i + 1) _ (by omega) (by omega)

/-- With a callback that never throws, the only error `customReduce` can
produce is its own empty-reduction `TypeError`, and only on an empty array
with an `undefined` initial value. -/
theorem customReduce_okCb_error {α ε : Type} (arr : JsArray α)
    (g : JsVal α → JsVal α → Nat → JsArray α → JsVal α) (init : JsVal α)
    (x : JsErr ε)
    (h : customReduce arr (fun a b i l => Except.ok (g a b i l)) init = Except.error x) :
    x = JsErr.typeError "Reduce of empty array with no initial value" ∧
      arr.length = 0 ∧ init = JsVal.undef := by
  cases init with
  | undef =>
    by_cases h0 : arr.length = 0
    · simp only [customReduce, if_pos h0] at h
      exact ⟨(Except.error.inj h).symm, h0, rfl⟩
    · simp only [customReduce, if_neg h0] at h
      obtain ⟨v, hv⟩ := customReduceLoop_ok (ε := ε) arr g arr.length 1 (jsGet arr 0) (by omega)
      rw [hv] at h
      exact absurd h (by simp)
  | val a =>
    simp only [customReduce] at h
    obtain ⟨v, hv⟩ := customReduceLoop_ok (ε := ε) arr g arr.length 0 (JsVal.val a) (by omega)
    rw [hv] at h
    exact absurd h (by simp)

/-! ## Lemmas about the state-threaded variants -/

theorem customMapStLoop_snd {α β : Type} (f : α → Nat → List α → β) (s : List α) :
    ∀ k i, s.length - i ≤ k → (customMapStLoop f s i).2 = s := by
  intro k
  induction k with
  | zero =>
    intro i h
    rw [customMapStLoop, dif_neg (by omega)]
  | succ k ih =>
    intro i h
    rw [customMapStLoop]
    by_cases hi : i < s.length
    · rw [dif_pos hi]
      exact ih (i + 1) (by omega)
    · rw [dif_neg hi]

theorem customFilterStLoop_snd {α : Type} (p : α → Nat → List α → Bool) (s : List α) :
    ∀ k i, s.length - i ≤ k → (customFilterStLoop p s i).2 = s := by
  intro k
  induction k with
  | zero =>
    intro i h
    rw [customFilterStLoop, dif_neg (by omega)]
  | succ k ih =>
    intro i h
    rw [customFilterStLoop]
    by_cases hi : i < s.length
    · rw [dif_pos hi]
      exact ih (i + 1) (by omega)
    · rw [dif_neg hi]

theorem customFindStLoop_snd {α : Type} (p : α → Nat → List α → Bool) (s : List α) :
    ∀ k i, s.length - i ≤ k → (customFindStLoop p s i).2 = s := by
  intro k
  induction k with
  | zero =>
    intro i h
    rw [customFindStLoop, dif_neg (by omega)]
  | succ k ih =>
    intro i h
    rw [customFindStLoop]
    by_cases hi : i < s.length
    · rw [dif_pos hi]
      by_cases hp : p (s.get ⟨i, hi⟩) i s
      · simp only [if_pos hp]
      · simp only [if_neg hp]
        exact ih (i + 1) (by omega)
    · rw [dif_neg hi]

theorem customReduceStLoop_snd {α ε : Type}
    (cb : JsVal α → JsVal α → Nat → JsArray α → Except (JsErr ε) (JsVal α))
    (arr : JsArray α) :
    ∀ k i acc, arr.length - i ≤ k → (customReduceStLoop cb arr i acc).2 = arr := by
  intro k
  induction k with
  | zero =>
    intro i acc h
    rw [customReduceStLoop, dif_neg (by omega)]
  | succ k ih =>
    intro i acc h
    rw [customReduceStLoop]
    by_cases hi : i < arr.length
    · rw [dif_pos hi]
      by_cases hown : hasOwnIdx arr i
      · rw [if_pos hown]
        cases hcb : cb acc (jsGet arr i) i arr with
        | error e => rfl
        | ok acc2 => exact ih (i + 1) acc2 (by omega)
      · rw [if_neg hown]
        exact ih (i + 1) acc (by omega)
    · rw [dif_neg hi]

/-! ## Claim theorems -/

/-- C4: for every sequence `s` and total transform `f`, `customMap s f` has the
same length as `s`, and for every valid index `i`, the `i`-th element of
`customMap s f` equals `f (s[i]) i s`. -/
theorem claim_C4_map_pointwise {α β : Type} (s : List α)
    (f : α → Nat → List α → β) :
    (customMap s f).length = s.length ∧
    ∀ i, ∀ h : i < s.length, (customMap s f)[i]? = some (f (s.get ⟨i, h⟩) i s) := by
  refine ⟨customMap_length s f, ?_⟩
  intro i h
  have hq := customMapLoop_getElem? s f s.length 0 i (by omega)
  rw [customMap, hq, dif_pos (show 0 + i < s.length by omega)]
  simp

/-- Witness for C4 at `s = [10, 20, 30]`, `f = fun a i _ => a + i`, `i = 1`. -/
theorem claim_C4_witness :
    (customMap [10, 20, 30] (fun a i (_ : List Nat) => a + i))[1]? = some 21 := by
  have h := (claim_C4_map_pointwise [10, 20, 30]
    (fun a i (_ : List Nat) => a + i)).2 1 (by decide)
  simpa using h

/-- C5: every element of `customFilter s p` satisfies `p` (at its original
index), the result is a sublist of `s` (same relative order, drawn from `s`),
no element of `s` satisfying `p` is omitted, and the result's length is at
most the input's. -/
theorem claim_C5_filter_spec {α : Type} (s : List α)
    (p : α → Nat → List α → Bool) :
    (∀ x ∈ customFilter s p,
        ∃ j, ∃ h : j < s.length, x = s.get ⟨j, h⟩ ∧ p x j s = true) ∧
    List.Sublist (customFilter s p) s ∧
    (∀ j, ∀ h : j < s.length,
        p (s.get ⟨j, h⟩) j s = true → s.get ⟨j, h⟩ ∈ customFilter s p) ∧
    (customFilter s p).length ≤ s.length := by
  have hsub : List.Sublist (customFilter s p) s := by
    have h := customFilterLoop_sublist s p s.length 0 (by omega)
    simpa [customFilter] using h
  refine ⟨?_, hsub, ?_, hsub.length_le⟩
  · intro x hx
    obtain ⟨j, hj, _, hxj, hpj⟩ :=
      customFilterLoop_mem s p s.length 0 x (by omega) hx
    exact ⟨j, hj, hxj, hpj⟩
  · intro j h hp
    exact customFilterLoop_complete s p s.length 0 j h (by omega) (by omega) hp

/-- Witness for C5: completeness applied at `s = [1, 2]`,
`p = fun a _ _ => a % 2 = 0`, `j = 1`. -/
theorem claim_C5_witness :
    ([1, 2] : List Nat).get ⟨1, by decide⟩ ∈
      customFilter [1, 2] (fun a (_ : Nat) (_ : List Nat) => decide (a % 2 = 0)) :=
  (claim_C5_filter_spec [1, 2]
    (fun a (_ : Nat) (_ : List Nat) => decide (a % 2 = 0))).2.2.1 1 (by decide) (by decide)

/-- C6: `customFind s p` returns the lowest-index element of `s` satisfying
`p`; it returns the not-found sentinel (`none`, modelling `undefined`) when no
element satisfies `p`, in particular on the empty sequence; and it
short-circuits: with a throwing callback that answers `ok false` below the
first match and `ok true` at it, the result is the match regardless of the
callback's behaviour past it. -/
theorem claim_C6_find_spec {α ε : Type} (s : List α)
    (p : α → Nat → List α → Bool)
    (cb : α → Nat → List α → Except ε Bool) :
    (∀ j, ∀ hj : j < s.length,
        (∀ m, ∀ hm : m < s.length, m < j → p (s.get ⟨m, hm⟩) m s = false) →
        p (s.get ⟨j, hj⟩) j s = true →
        customFind s p = some (s.get ⟨j, hj⟩)) ∧
    ((∀ m, ∀ hm : m < s.length, p (s.get ⟨m, hm⟩) m s = false) →
        customFind s p = none) ∧
    (∀ q : α → Nat → List α → Bool, customFind ([] : List α) q = none) ∧
    (∀ j, ∀ hj : j < s.length,
        (∀ m, ∀ hm : m < s.length, m < j → cb (s.get ⟨m, hm⟩) m s = Except.ok false) →
        cb (s.get ⟨j, hj⟩) j s = Except.ok true →
        customFindE s cb = Except.ok (some (s.get ⟨j, hj⟩))) := by
  refine ⟨?_, ?_, ?_, ?_⟩
  · intro j hj hbefore hp
    exact customFindLoop_first s p s.length 0 j hj (by omega) (by omega)
      (fun m hm _ hmj => hbefore m hm hmj) hp
  · intro hall
    exact customFindLoop_none s p s.length 0 (by omega)
      (fun m hm _ => hall m hm)
  · intro q
    rw [customFind, customFindLoop, dif_neg (by simp)]
  · intro j hj hbefore hcb
    exact customFindELoop_shortcircuit s cb s.length 0 j hj (by omega) (by omega)
      (fun m hm _ hmj => hbefore m hm hmj) hcb

/-- Witness for C6 at `s = [3, 4]`, `p = fun a _ _ => 3 < a`: the first match
is at index 1. -/
theorem claim_C6_witness :
    customFind [3, 4] (fun a (_ : Nat) (_ : List Nat) => decide (3 < a)) =
      some (([3, 4] : List Nat).get ⟨1, by decide⟩) :=
  (claim_C6_find_spec [3, 4] (fun a (_ : Nat) (_ : List Nat) => decide (3 < a))
    (fun a (_ : Nat) (_ : List Nat) => (Except.ok (decide (3 < a)) : Except Unit Bool))).1
    1 (by decide) (by decide) (by decide)

/-- C7: an exception thrown by the caller-supplied function during `customMap`,
`customFilter`, `customFind`, or `customReduce` propagates unmodified to the
caller, aborting iteration (the whole result is that error, never a partial
result); with a never-throwing callback the three traversals return the pure
result, and the only error `customReduce` raises itself is the
empty-reduction `TypeError`. -/
theorem claim_C7_error_propagation {α β ε : Type} :
    (∀ (s : List α) (f : α → Nat → List α → β) (j : Nat) (e : ε), j < s.length →
      customMapE s (fun a i l => if i = j then Except.error e else Except.ok (f a i l)) =
        Except.error e) ∧
    (∀ (s : List α) (p : α → Nat → List α → Bool) (j : Nat) (e : ε), j < s.length →
      customFilterE s (fun a i l => if i = j then Except.error e else Except.ok (p a i l)) =
        Except.error e) ∧
    (∀ (s : List α) (p : α → Nat → List α → Bool) (j : Nat) (e : ε),
      j < s.length →
      (∀ m, ∀ hm : m < s.length, m < j → p (s.get ⟨m, hm⟩) m s = false) →
      customFindE s (fun a i l => if i = j then Except.error e else Except.ok (p a i l)) =
        Except.error e) ∧
    (∀ (l : List (JsVal α)) (g : JsVal α → JsVal α → Nat → JsArray α → JsVal α)
        (j : Nat) (e : JsErr ε) (a : α), j < l.length →
      customReduce (l.map some)
        (fun acc b i arr2 => if i = j then Except.error e else Except.ok (g acc b i arr2))
        (JsVal.val a) = Except.error e) ∧
    (∀ (s : List α) (f : α → Nat → List α → β),
      customMapE s (fun a i l => (Except.ok (f a i l) : Except ε β)) =
        Except.ok (customMap s f)) ∧
    (∀ (s : List α) (p : α → Nat → List α → Bool),
      customFilterE s (fun a i l => (Except.ok (p a i l) : Except ε Bool)) =
        Except.ok (customFilter s p) ∧
      customFindE s (fun a i l => (Except.ok (p a i l) : Except ε Bool)) =
        Except.ok (customFind s p)) ∧
    (∀ (arr : JsArray α) (g : JsVal α → JsVal α → Nat → JsArray α → JsVal α)
        (init : JsVal α) (x : JsErr ε),
      customReduce arr (fun acc b i l => Except.ok (g acc b i l)) init = Except.error x →
      x = JsErr.typeError "Reduce of empty array with no initial value") := by
  refine ⟨?_, ?_, ?_, ?_, ?_, ?_, ?_⟩
  · intro s f j e hj
    exact customMapELoop_err s f j e hj s.length 0 (by omega) (by omega)
  · intro s p j e hj
    exact customFilterELoop_err s p j e hj s.length 0 (by omega) (by omega)
  · intro s p j e hj hbefore
    exact customFindELoop_err s p j e hj s.length 0 (by omega) (by omega)
      (fun m hm _ hmj => hbefore m hm hmj)
  · intro l g j e a hj
    simp only [customReduce]
    exact customReduceLoop_err l g j e hj l.length 0 (JsVal.val a) (by omega) (by omega)
  · intro s f
    exact customMapELoop_ok s f s.length 0 (by omega)
  · intro s p
    exact ⟨customFilterELoop_ok s p s.length 0 (by omega),
      customFindELoop_ok s p s.length 0 (by omega)⟩
  · intro arr g init x h
    exact (customReduce_okCb_error arr g init x h).1

/-- Witness for C7: `customMapE` propagates the error thrown at index 1 of
`[5, 6]`. -/
theorem claim_C7_witness :
    customMapE [5, 6]
      (fun a i (_ : List Nat) => if i = 1 then Except.error "boom" else Except.ok (a * 2)) =
      Except.error "boom" :=
  (claim_C7_error_propagation (β := Nat)).1 [5, 6]
    (fun a (_ : Nat) (_ : List Nat) => a * 2) 1 "boom" (by decide)

/-- C2 (amended): `customReduce` on the empty array with no initial value
(in JavaScript an omitted argument is the value `undefined`) fails with the
distinct empty-reduction `TypeError`; with a *defined* initial value it
returns that value unchanged.  (The unamended claim fails when the supplied
initial value is itself `undefined`: the code cannot distinguish that from
omission — see the counterexample.) -/
theorem claim_C2_empty_reduce {α ε : Type} :
    (∀ cb : JsVal α → JsVal α → Nat → JsArray α → Except (JsErr ε) (JsVal α),
      customReduce ([] : JsArray α) cb JsVal.undef =
        Except.error (JsErr.typeError "Reduce of empty array with no initial value")) ∧
    (∀ (cb : JsVal α → JsVal α → Nat → JsArray α → Except (JsErr ε) (JsVal α)) (a : α),
      customReduce ([] : JsArray α) cb (JsVal.val a) = Except.ok (JsVal.val a)) := by
  constructor
  · intro cb
    simp [customReduce]
  · intro cb a
    simp only [customReduce]
    rw [customReduceLoop, dif_neg (by simp)]

/-- Counterexample for C2 as stated: supplying the initial value `undefined`
on the empty array does not return it unchanged — the code throws the
empty-reduction `TypeError` instead. -/
theorem claim_C2_counterexample :
    customReduce ([] : JsArray Nat)
      (fun a _ _ _ => (Except.ok a : Except (JsErr Unit) (JsVal Nat))) JsVal.undef ≠
      Except.ok JsVal.undef := by
  simp [customReduce]

/-- C3 (amended): `customReduce` folds left-to-right with step
`accumulator = callback accumulator (this[i]) i this`: with a *defined*
initial value, `customReduce [a] cb init = cb init a 0 [a]`; without an
initial value the accumulator is seeded from the element at index 0 and
iteration covers indices from 1, so
`customReduce [a,b,c] g = g (g a b 1 [a,b,c]) c 2 [a,b,c]` for a
non-throwing `g`.  (The unamended claim fails when the supplied initial
value is `undefined` — see the counterexample.) -/
theorem claim_C3_reduce_fold {α ε : Type} :
    (∀ (iv : α) (a : JsVal α)
        (cb : JsVal α → JsVal α → Nat → JsArray α → Except (JsErr ε) (JsVal α)),
      customReduce [some a] cb (JsVal.val iv) = cb (JsVal.val iv) a 0 [some a]) ∧
    (∀ (a b c : JsVal α) (g : JsVal α → JsVal α → Nat → JsArray α → JsVal α),
      customReduce [some a, some b, some c]
        (fun x y i l => (Except.ok (g x y i l) : Except (JsErr ε) (JsVal α)))
        JsVal.undef =
        Except.ok (g (g a b 1 [some a, some b, some c]) c 2 [some a, some b, some c])) := by
  constructor
  · intro iv a cb
    simp only [customReduce]
    rw [customReduceLoop, dif_pos (show 0 < [some a].length by simp)]
    rw [if_pos (show hasOwnIdx [some a] 0 = true from rfl)]
    have hg : jsGet [some a] 0 = a := rfl
    rw [hg]
    cases hcb : cb (JsVal.val iv) a 0 [some a] with
    | error e => rfl
    | ok v =>
      show customReduceLoop [some a] cb 1 v = Except.ok v
      rw [customReduceLoop, dif_neg (by simp)]
  · intro a b c g
    simp [customReduce, customReduceLoop, hasOwnIdx, jsGet]

/-- Counterexample for C3 as stated: with the initial value `undefined`,
`customReduce [5] cb undefined` seeds the accumulator from the element and
returns `5`, not `cb undefined 5 0 [5]` (which is `99` here). -/
theorem claim_C3_counterexample :
    customReduce [some (JsVal.val 5)]
      (fun _ _ _ _ => (Except.ok (JsVal.val 99) : Except (JsErr Unit) (JsVal Nat)))
      JsVal.undef ≠
      (fun (_ _ : JsVal Nat) (_ : Nat) (_ : JsArray Nat) =>
          (Except.ok (JsVal.val 99) : Except (JsErr Unit) (JsVal Nat)))
        JsVal.undef (JsVal.val 5) 0 [some (JsVal.val 5)] := by
  simp [customReduce, customReduceLoop, jsGet]

/-- C8 fails on the code: on the sparse array `[hole, 5]` with no initial
value, index 0 is absent (`hasOwnIdx = false`, reading it gives `undefined`),
yet the seed `accumulator = this[0]` is taken without a `hasOwnProperty`
check, so the accumulator is seeded with `undefined` instead of skipping to
the first present element.  With the reducer that returns its accumulator,
the result is `undefined` where hole-skipping semantics (and the built-in
`Array.prototype.reduce` the code documents itself as mimicking) give `5`. -/
theorem claim_C8_sparse_seed_not_skipped :
    hasOwnIdx ([none, some (JsVal.val 5)] : JsArray Nat) 0 = false ∧
    jsGet ([none, some (JsVal.val 5)] : JsArray Nat) 0 = JsVal.undef ∧
    customReduce ([none, some (JsVal.val 5)] : JsArray Nat)
      (fun acc _ _ _ => (Except.ok acc : Except (JsErr Unit) (JsVal Nat)))
      JsVal.undef = Except.ok JsVal.undef := by
  refine ⟨rfl, rfl, ?_⟩
  simp [customReduce, customReduceLoop, jsGet, hasOwnIdx]

/-- C9: each traversal leaves the input sequence unchanged — in the
state-threaded embeddings (which thread the array through every loop
iteration and return the array the caller observes afterwards), the array
coming back is exactly the array passed in, for every callback. -/
theorem claim_C9_input_unchanged {α β ε : Type} (s : List α)
    (f : α → Nat → List α → β) (p : α → Nat → List α → Bool)
    (arr : JsArray α)
    (cb : JsVal α → JsVal α → Nat → JsArray α → Except (JsErr ε) (JsVal α))
    (init : JsVal α) :
    (customMapSt s f).2 = s ∧
    (customFilterSt s p).2 = s ∧
    (customFindSt s p).2 = s ∧
    (customReduceSt arr cb init).2 = arr := by
  refine ⟨customMapStLoop_snd f s s.length 0 (by omega),
    customFilterStLoop_snd p s s.length 0 (by omega),
    customFindStLoop_snd p s s.length 0 (by omega), ?_⟩
  cases init with
  | undef =>
    by_cases h0 : arr.length = 0
    · simp [customReduceSt, h0]
    · simp only [customReduceSt, if_neg h0]
      exact customReduceStLoop_snd cb arr arr.length 1 (jsGet arr 0) (by omega)
  | val a =>
    simp only [customReduceSt]
    exact customReduceStLoop_snd cb arr arr.length 0 (JsVal.val a) (by omega)

/-- C10: with a non-throwing callback, `customReduce` raises an error exactly
when the array is empty and the initial-value argument is `undefined` (in
JavaScript an omitted argument *is* the value `undefined`, so this covers
both omission and an explicit `undefined`); and on any non-empty array an
`undefined` initial value makes the run identical to the omitted-value run:
the accumulator is seeded from `this[0]` and iteration starts at index 1.
Consequently `undefined` can never serve as a genuine initial accumulator. -/
theorem claim_C10_undefined_initial {α ε : Type} :
    (∀ (arr : JsArray α) (g : JsVal α → JsVal α → Nat → JsArray α → JsVal α)
        (init : JsVal α),
      (∃ x : JsErr ε,
          customReduce arr (fun a b i l => Except.ok (g a b i l)) init =
            Except.error x) ↔
        (arr.length = 0 ∧ init = JsVal.undef)) ∧
    (∀ (arr : JsArray α)
        (cb : JsVal α → JsVal α → Nat → JsArray α → Except (JsErr ε) (JsVal α)),
      arr.length ≠ 0 →
      customReduce arr cb JsVal.undef = customReduceLoop arr cb 1 (jsGet arr 0)) := by
  constructor
  · intro arr g init
    constructor
    · rintro ⟨x, hx⟩
      exact (customReduce_okCb_error arr g init x hx).2
    · rintro ⟨h0, hu⟩
      subst hu
      exact ⟨JsErr.typeError "Reduce of empty array with no initial value",
        by simp [customReduce, h0]⟩
  · intro arr cb hne
    simp [customReduce, hne]

/-- Witness for C10 on the non-empty array `[7]`: an `undefined` initial value
runs the loop from index 1 seeded with `this[0]`. -/
theorem claim_C10_witness :
    customReduce ([some (JsVal.val 7)] : JsArray Nat)
      (fun _ _ _ _ => (Except.ok (JsVal.val 0) : Except (JsErr Unit) (JsVal Nat)))
      JsVal.undef =
      customReduceLoop [some (JsVal.val 7)]
        (fun _ _ _ _ => (Except.ok (JsVal.val 0) : Except (JsErr Unit) (JsVal Nat)))
        1 (jsGet [some (JsVal.val 7)] 0) :=
  claim_C10_undefined_initial.2 [some (JsVal.val 7)]
    (fun _ _ _ _ => Except.ok (JsVal.val 0)) (by simp)

/-- C1: the scheduler dequeues a macrotask only at a point where the
microtask queue is empty — so all queued microtasks, including those enqueued
by running microtasks (they are in `microQueue` when the next step is taken),
run to exhaustion before any macrotask; and in the concrete scenario
"submit macrotask M1 (delay 0), then microtask U1 before M1 executes",
`runToCompletion` executes U1 before M1. -/
theorem claim_C1_micro_before_macro :
    (∀ (s : SchedState) (lbl : String) (s2 : SchedState),
      schedStep s = some ((lbl, EntryKind.timerEntry), s2) → s.microQueue = []) ∧
    runToCompletion 10
        (submitMicrotask (SchedTask.mk "U1" [])
          (submitMacrotask (SchedTask.mk "M1" []) 0 initSched)) =
      [("U1", EntryKind.microEntry), ("M1", EntryKind.timerEntry)] := by
  constructor
  · intro s lbl s2 h
    cases hm : s.microQueue with
    | nil => rfl
    | cons t rest =>
      rw [schedStep, hm] at h
      simp at h
  · rfl

/-- Witness for C1: at a state with an empty microtask queue and M1 queued,
the step that executes M1 indeed sees an empty microtask queue. -/
theorem claim_C1_witness :
    ({ microQueue := [], timerQueue := [(SchedTask.mk "M1" [], 0, 0)], nextSeq := 1 } :
      SchedState).microQueue = [] :=
  claim_C1_micro_before_macro.1
    { microQueue := [], timerQueue := [(SchedTask.mk "M1" [], 0, 0)], nextSeq := 1 }
    "M1"
    (runTask (SchedTask.mk "M1" [])
      { microQueue := [], timerQueue := [], nextSeq := 1 })
    rfl
